import Mathlib

/-!
Verification of the liquid-glass animation-and-geometry engine.

The development shallowly embeds the engine's source:

* the per-channel spring integrator (springStep in liquid-glass.tsx and in the
  full variant bundle), over exact rationals;
* the per-corner radius integrator (springStepBorderRadius in utils.ts);
* the frame loop of the full variant (useFrame callback), with its
  geometry-rebuild gating;
* the animation-record merge (mergeAnimations in utils.ts) and the interaction
  state resolver (getCurrentAnimation in liquid-glass.tsx and in
  use-liquid-glass-animation.ts) over sparse records with optional fields;
* the target computation (applyAnimation in use-liquid-glass-animation.ts);
* the pointer handlers (handlers.ts);
* the boundary-shape builder (normalizeBorderRadius, createRoundedRectangleShape
  and createSmoothArc in utils.ts), over the reals.

Numeric JS values are modelled as exact rationals where the claims are about
exact iteration results, and as reals where the geometry involves trigonometry.
-/

set_option maxRecDepth 100000

section SpringPhysics

attribute [local semireducible] Rat.add Rat.mul Rat.sub Rat.inv

/-- JS Math.abs on the rationals. -/
def mathAbs (x : ℚ) : ℚ := if x < 0 then -x else x

/-- The spring integrator, from liquid-glass.tsx (springStep, closing over the
springStrength / damping / animationThreshold props) and identically, with the
strength and damping taken as arguments, from the full variant bundle.
Returns (newValue, newVelocity, isAnimating); when the step settles it snaps
the value to the target and zeroes the velocity. -/
def springStep (strength damping threshold current target velocity delta : ℚ) :
    ℚ × ℚ × Bool :=
  let displacement := target - current
  let springForce := displacement * strength
  let newVelocity := (velocity + springForce * delta) * damping
  let newValue := current + newVelocity * delta * 50
  if mathAbs displacement > threshold ∨ mathAbs newVelocity > threshold then
    (newValue, newVelocity, true)
  else
    (target, 0, false)

/-- Repeated stepping of one spring channel with a fixed target and delta,
starting from a (current, velocity) pair. -/
def iterSpring (strength damping threshold target delta : ℚ) (p : ℚ × ℚ) :
    ℕ → ℚ × ℚ
  | 0 => p
  | n + 1 =>
    let r := springStep strength damping threshold p.1 target p.2 delta
    iterSpring strength damping threshold target delta (r.1, r.2.1) n

theorem iterSpring_add (s d t tg δ : ℚ) (p : ℚ × ℚ) (m n : ℕ) :
    iterSpring s d t tg δ p (m + n) =
      iterSpring s d t tg δ (iterSpring s d t tg δ p m) n := by
  induction m generalizing p with
  | zero => rw [Nat.zero_add]; rfl
  | succ k ih =>
    have e : k + 1 + n = (k + n) + 1 := by omega
    rw [e]
    show iterSpring s d t tg δ _ (k + n) = _
    rw [ih]
    rfl

/-- A channel sitting exactly on its target with zero velocity stays there and
reports itself settled, for any nonnegative threshold. -/
theorem springStep_at_rest (s d t tg δ : ℚ) (ht : 0 ≤ t) :
    springStep s d t tg tg 0 δ = (tg, 0, false) := by
  have habs : mathAbs 0 = 0 := by simp [mathAbs]
  simp only [springStep, sub_self, zero_mul, zero_add, add_zero, mul_zero, habs,
    gt_iff_lt, or_self]
  rw [if_neg (not_lt.2 ht)]

/-- C1: with stiffness 15, damping 0.8 and threshold 0.001, stepping the spring
channel from current 0, velocity 0 toward target 1 with fixed delta 1/60
settles within 200 frames: there is an n at most 200 such that the step taken
at the state reached after n steps reports not-animating, snaps the current
value exactly to 1 and zeroes the velocity. -/
theorem C1_spring_convergence :
    ∃ n : ℕ, n ≤ 200 ∧
      springStep 15 (4/5) (1/1000)
          (iterSpring 15 (4/5) (1/1000) 1 (1/60) (0, 0) n).1 1
          (iterSpring 15 (4/5) (1/1000) 1 (1/60) (0, 0) n).2 (1/60)
        = (1, 0, false) := by
  refine ⟨56, by norm_num, ?_⟩
  have h20 : iterSpring 15 (4/5) (1/1000) 1 (1/60) (0, 0) 20 =
      ((73340622432974629312341502939 : ℚ)/69735688020000000000000000000,
       (2921383258408893248542273009 : ℚ)/58113073350000000000000000000) := by
    decide
  have h40 : iterSpring 15 (4/5) (1/1000) 1 (1/60)
      ((73340622432974629312341502939 : ℚ)/69735688020000000000000000000,
       (2921383258408893248542273009 : ℚ)/58113073350000000000000000000) 20 =
      ((24455180680924896222094055539780882549467370514560229749339 : ℚ)/24315330918113857602000000000000000000000000000000000000000,
       -((113848430559773496292703928406650417310122381543428648591 : ℚ)/20262775765094881335000000000000000000000000000000000000000)) := by
    decide
  have h56 : iterSpring 15 (4/5) (1/1000) 1 (1/60)
      ((24455180680924896222094055539780882549467370514560229749339 : ℚ)/24315330918113857602000000000000000000000000000000000000000,
       -((113848430559773496292703928406650417310122381543428648591 : ℚ)/20262775765094881335000000000000000000000000000000000000000)) 16 =
      ((10468648654526561855906660353808596273181123143535178947129931424556845699121415259 : ℚ)/10466952660547210744270230420000000000000000000000000000000000000000000000000000000,
       -((9243927075215223110574820252108276278992788196838022634267733218621230555773071 : ℚ)/8722460550456008953558525350000000000000000000000000000000000000000000000000000000)) := by
    decide
  have e : (56 : ℕ) = 20 + 20 + 16 := by norm_num
  rw [e, iterSpring_add, iterSpring_add, h20, h40, h56]
  decide

end SpringPhysics

section AnimationRecords

attribute [local semireducible] Rat.add Rat.mul Rat.sub Rat.inv

/-- The borderRadius field of an animation record: a single number or a
[topLeft, topRight, bottomRight, bottomLeft] tuple (types.ts, BorderRadius). -/
inductive RadiusValue
  | scalar (r : ℚ)
  | corners (topLeft topRight bottomRight bottomLeft : ℚ)
deriving DecidableEq

/-- AnimationValues (types.ts): a sparse record of optional overrides.
A field holding none models an absent (undefined) property. -/
structure AnimationValues where
  x : Option ℚ := none
  y : Option ℚ := none
  z : Option ℚ := none
  scale : Option ℚ := none
  scaleX : Option ℚ := none
  scaleY : Option ℚ := none
  scaleZ : Option ℚ := none
  width : Option ℚ := none
  height : Option ℚ := none
  rotateX : Option ℚ := none
  rotateY : Option ℚ := none
  rotateZ : Option ℚ := none
  opacity : Option ℚ := none
  borderRadius : Option RadiusValue := none
deriving DecidableEq

/-- The names of the fields of AnimationValues. -/
inductive AnimationField
  | x | y | z | scale | scaleX | scaleY | scaleZ | width | height
  | rotateX | rotateY | rotateZ | opacity | borderRadius
deriving DecidableEq

/-- The possible values of a field of AnimationValues. -/
abbrev FieldValue := ℚ ⊕ RadiusValue

/-- Read one field of an animation record by name. -/
def AnimationValues.get (a : AnimationValues) : AnimationField → Option FieldValue
  | .x => a.x.map Sum.inl
  | .y => a.y.map Sum.inl
  | .z => a.z.map Sum.inl
  | .scale => a.scale.map Sum.inl
  | .scaleX => a.scaleX.map Sum.inl
  | .scaleY => a.scaleY.map Sum.inl
  | .scaleZ => a.scaleZ.map Sum.inl
  | .width => a.width.map Sum.inl
  | .height => a.height.map Sum.inl
  | .rotateX => a.rotateX.map Sum.inl
  | .rotateY => a.rotateY.map Sum.inl
  | .rotateZ => a.rotateZ.map Sum.inl
  | .opacity => a.opacity.map Sum.inl
  | .borderRadius => a.borderRadius.map Sum.inr

/-- One property of a JS Object.assign: the update wins when it is defined,
otherwise the old value is kept. -/
def jsOr {α : Type} (old upd : Option α) : Option α :=
  match upd with
  | some v => some v
  | none => old

/-- Object.assign(merged, animation) restricted to the AnimationValues fields:
every defined field of the second record overwrites the first. -/
def AnimationValues.assign (a b : AnimationValues) : AnimationValues where
  x := jsOr a.x b.x
  y := jsOr a.y b.y
  z := jsOr a.z b.z
  scale := jsOr a.scale b.scale
  scaleX := jsOr a.scaleX b.scaleX
  scaleY := jsOr a.scaleY b.scaleY
  scaleZ := jsOr a.scaleZ b.scaleZ
  width := jsOr a.width b.width
  height := jsOr a.height b.height
  rotateX := jsOr a.rotateX b.rotateX
  rotateY := jsOr a.rotateY b.rotateY
  rotateZ := jsOr a.rotateZ b.rotateZ
  opacity := jsOr a.opacity b.opacity
  borderRadius := jsOr a.borderRadius b.borderRadius

/-- mergeAnimations (utils.ts): skip the undefined records, then fold
Object.assign over the rest starting from the empty record. -/
def mergeAnimations (animations : List (Option AnimationValues)) : AnimationValues :=
  (animations.filterMap id).foldl AnimationValues.assign {}

theorem jsOr_map {α β : Type} (g : α → β) (a b : Option α) :
    (jsOr a b).map g = jsOr (a.map g) (b.map g) := by
  cases b <;> rfl

theorem jsOr_none_left {α : Type} (b : Option α) : jsOr none b = b := by
  cases b <;> rfl

theorem get_assign (a b : AnimationValues) (f : AnimationField) :
    (a.assign b).get f = jsOr (a.get f) (b.get f) := by
  cases f <;> simp only [AnimationValues.get, AnimationValues.assign, jsOr_map]

theorem get_empty (f : AnimationField) : AnimationValues.get {} f = none := by
  cases f <;> rfl

theorem getLast?_cons {α : Type} (v : α) (t : List α) :
    (v :: t).getLast? = jsOr (some v) t.getLast? := by
  cases t with
  | nil => rfl
  | cons w t' =>
    rw [List.getLast?_cons_cons]
    cases h : (w :: t').getLast? with
    | some u => rfl
    | none =>
      exact absurd (List.getLast?_eq_none_iff.1 h) (List.cons_ne_nil w t')

theorem get_foldl_assign (l : List AnimationValues) (acc : AnimationValues)
    (f : AnimationField) :
    ((l.foldl AnimationValues.assign acc).get f) =
      jsOr (acc.get f) ((l.filterMap (fun a => a.get f)).getLast?) := by
  induction l generalizing acc with
  | nil => rfl
  | cons a l ih =>
    rw [List.foldl_cons, ih, get_assign, List.filterMap_cons]
    cases hga : a.get f with
    | none => simp only [jsOr]
    | some v =>
      rw [getLast?_cons]
      cases (l.filterMap (fun a => a.get f)).getLast? <;> simp only [jsOr]

theorem mergeAnimations_get (l : List (Option AnimationValues)) (f : AnimationField) :
    (mergeAnimations l).get f =
      ((l.filterMap id).filterMap (fun a => a.get f)).getLast? := by
  rw [mergeAnimations, get_foldl_assign, get_empty, jsOr_none_left]

theorem mergeAnimations_pair_get (a b : AnimationValues) (f : AnimationField) :
    (mergeAnimations [some a, some b]).get f = jsOr (a.get f) (b.get f) := by
  rw [mergeAnimations_get]
  show ([a, b].filterMap (fun a => a.get f)).getLast? = _
  rw [List.filterMap_cons, List.filterMap_cons, List.filterMap_nil]
  cases hga : a.get f with
  | none =>
    rw [jsOr_none_left]
    cases hgb : b.get f <;> rfl
  | some v =>
    cases hgb : b.get f <;> simp only [getLast?_cons, List.getLast?_nil,
      List.getLast?_singleton, jsOr]

/-- C7: merging a sequence of animation records is field-by-field last-defined-
wins: each field of the result is the last defined value among the (present)
records, and none when no record defines it; appending records none of which
define a field leaves that field of the merge unchanged. -/
theorem C7_merge_semantics :
    (∀ (l : List (Option AnimationValues)) (f : AnimationField),
        (mergeAnimations l).get f =
          ((l.filterMap id).filterMap (fun a => a.get f)).getLast?)
    ∧ ∀ (l₁ l₂ : List (Option AnimationValues)) (f : AnimationField),
        (∀ a ∈ l₂.filterMap id, a.get f = none) →
          (mergeAnimations (l₁ ++ l₂)).get f = (mergeAnimations l₁).get f := by
  refine ⟨mergeAnimations_get, fun l₁ l₂ f h => ?_⟩
  rw [mergeAnimations_get, mergeAnimations_get, List.filterMap_append,
    List.filterMap_append, List.filterMap_eq_nil_iff.2 h, List.append_nil]

/-- Witness for C7: the second conjunct applied to concrete record lists. -/
theorem C7_merge_semantics_witness :
    (mergeAnimations [some { scale := some 2 }, none,
        some { opacity := some 1 }]).get .scale
      = (mergeAnimations [some { scale := some 2 }]).get .scale :=
  C7_merge_semantics.2 [some { scale := some 2 }] [none, some { opacity := some 1 }]
    .scale (by decide)

/-- The four per-state default records, as one record of records (constants.ts
and the constants file of the full variant bundle both shape it this way). -/
structure DefaultAnimations where
  whileHover : AnimationValues
  whileTap : AnimationValues
  whileActive : AnimationValues
  whileDisabled : AnimationValues

/-- DEFAULT_ANIMATIONS from src constants.ts: hover and active scale to 1.1,
tap to 0.95, disabled to 0.9 with opacity 0.5. -/
def DEFAULT_ANIMATIONS : DefaultAnimations where
  whileHover := { scale := some (11/10) }
  whileTap := { scale := some (19/20) }
  whileActive := { scale := some (11/10) }
  whileDisabled := { scale := some (9/10), opacity := some (1/2) }

/-- getCurrentAnimation from liquid-glass.tsx: resolve the interaction flags
and per-state overrides into one merged animation record. Active forms a base
layer; Disabled, then Pressed, then Hovered return a merge over that base. -/
def getCurrentAnimation (active disabled isPressed isHovered : Bool)
    (whileHover whileTap whileActive whileDisabled : Option AnimationValues) :
    AnimationValues :=
  let baseAnimation : AnimationValues :=
    if active then whileActive.getD DEFAULT_ANIMATIONS.whileActive else {}
  if disabled then
    mergeAnimations [some baseAnimation,
      some (whileDisabled.getD DEFAULT_ANIMATIONS.whileDisabled)]
  else if isPressed then
    mergeAnimations [some baseAnimation,
      some (whileTap.getD DEFAULT_ANIMATIONS.whileTap)]
  else if isHovered then
    mergeAnimations [some baseAnimation,
      some (whileHover.getD DEFAULT_ANIMATIONS.whileHover)]
  else baseAnimation

/-- C6: with both the active and the disabled flag set, the resolver returns
the whileDisabled record (or its default) merged over the whileActive record
(or its default) — field-by-field, defined fields of Disabled winning — and
does so for every value of the pressed and hovered flags. -/
theorem C6_disabled_over_active :
    ∀ (isPressed isHovered : Bool) (wH wT wA wD : Option AnimationValues),
      getCurrentAnimation true true isPressed isHovered wH wT wA wD
          = mergeAnimations [some (wA.getD DEFAULT_ANIMATIONS.whileActive),
              some (wD.getD DEFAULT_ANIMATIONS.whileDisabled)]
        ∧ ∀ f, (getCurrentAnimation true true isPressed isHovered wH wT wA wD).get f
            = jsOr ((wA.getD DEFAULT_ANIMATIONS.whileActive).get f)
                ((wD.getD DEFAULT_ANIMATIONS.whileDisabled).get f) := by
  intro isPressed isHovered wH wT wA wD
  constructor
  · rfl
  · intro f
    rw [show getCurrentAnimation true true isPressed isHovered wH wT wA wD
        = mergeAnimations [some (wA.getD DEFAULT_ANIMATIONS.whileActive),
            some (wD.getD DEFAULT_ANIMATIONS.whileDisabled)] from rfl]
    exact mergeAnimations_pair_get _ _ f

/-- C8 counterexample: with only the hovered flag set and no overrides, the
resolver's scale field is 1.1 (the src constants.ts default), not the 1.05 the
claim states. -/
theorem C8_counterexample :
    (getCurrentAnimation false false false true none none none none).get .scale
        = some (Sum.inl (11/10 : ℚ))
      ∧ (getCurrentAnimation false false false true none none none none).get .scale
        ≠ some (Sum.inl (21/20 : ℚ)) := by
  exact ⟨by decide, by decide⟩

/-- C8 (amended): when the hovered flag is set, disabled and pressed are not,
and no whileHover override is supplied, the resolver returns the default hover
animation, which is scale 1.1, merged over the accumulator (the whileActive
layer when active, else the empty record). -/
theorem C8_default_hover_amended :
    (∀ (active : Bool) (wT wA wD : Option AnimationValues),
        getCurrentAnimation active false false true none wT wA wD
          = mergeAnimations
              [some (if active then wA.getD DEFAULT_ANIMATIONS.whileActive else {}),
               some DEFAULT_ANIMATIONS.whileHover])
      ∧ DEFAULT_ANIMATIONS.whileHover = { scale := some (11/10) } :=
  ⟨fun _ _ _ _ => rfl, rfl⟩

/-- Spring transition configuration (types of the full variant bundle). -/
structure Transition where
  stiffness : ℚ
  damping : ℚ
  mass : ℚ
  threshold : ℚ

namespace FullVariant

/-- DEFAULT_TRANSITION from the constants file of the full variant bundle:
stiffness 15, damping 0.8, mass 1, threshold 0.001. -/
def DEFAULT_TRANSITION : Transition where
  stiffness := 15
  damping := 4/5
  mass := 1
  threshold := 1/1000

/-- DEFAULT_ANIMATIONS from the constants file of the full variant bundle
(the constants the animation hook resolves its defaults from): hover 1.05,
tap 0.95 with scaleZ 0.9, active 1.08, disabled 0.95 with opacity 0.5. -/
def DEFAULT_ANIMATIONS : DefaultAnimations where
  whileHover := { scale := some (21/20) }
  whileTap := { scale := some (19/20), scaleZ := some (9/10) }
  whileActive := { scale := some (27/25) }
  whileDisabled := { scale := some (19/20), opacity := some (1/2) }

end FullVariant

namespace Hook

/-- getCurrentAnimation from use-liquid-glass-animation.ts: the animate prop
seeds the accumulator, Active merges over it as a base layer, then Disabled,
Pressed and Hovered return their merge over the accumulator in that order. -/
def getCurrentAnimation (animate : Option AnimationValues)
    (active disabled isPressed isHovered : Bool)
    (whileHover whileTap whileActive whileDisabled : Option AnimationValues) :
    AnimationValues :=
  let start : AnimationValues := animate.getD {}
  let baseAnimation :=
    if active then
      mergeAnimations [some start,
        some (whileActive.getD FullVariant.DEFAULT_ANIMATIONS.whileActive)]
    else start
  if disabled then
    mergeAnimations [some baseAnimation,
      some (whileDisabled.getD FullVariant.DEFAULT_ANIMATIONS.whileDisabled)]
  else if isPressed then
    mergeAnimations [some baseAnimation,
      some (whileTap.getD FullVariant.DEFAULT_ANIMATIONS.whileTap)]
  else if isHovered then
    mergeAnimations [some baseAnimation,
      some (whileHover.getD FullVariant.DEFAULT_ANIMATIONS.whileHover)]
  else baseAnimation

/-- The per-channel targets written by applyAnimation in
use-liquid-glass-animation.ts. -/
structure Targets where
  targetWidth : ℚ
  targetHeight : ℚ
  targetScaleZ : ℚ
  targetPosition : ℚ × ℚ × ℚ
  targetRotation : ℚ × ℚ × ℚ
  targetOpacity : ℚ

/-- applyAnimation from use-liquid-glass-animation.ts: explicit width/height
are taken directly, then scale overwrites both as base × scale and sets the
Z-scale, then scaleX / scaleY overwrite the width / height targets and scaleZ
the Z-scale; x/y/z default to the base position, rotations are added to the
base rotation, opacity defaults to 1. -/
def applyAnimation (baseWidth baseHeight : ℚ) (basePosition baseRotation : ℚ × ℚ × ℚ)
    (animation : AnimationValues) : Targets :=
  let tW1 := match animation.width with | some w => w | none => baseWidth
  let tH1 := match animation.height with | some h => h | none => baseHeight
  let tW2 := match animation.scale with | some s => baseWidth * s | none => tW1
  let tH2 := match animation.scale with | some s => baseHeight * s | none => tH1
  let sZ1 : ℚ := match animation.scale with | some s => s | none => 1
  let tW3 := match animation.scaleX with | some sx => baseWidth * sx | none => tW2
  let tH3 := match animation.scaleY with | some sy => baseHeight * sy | none => tH2
  let sZ2 := match animation.scaleZ with | some z => z | none => sZ1
  { targetWidth := tW3
    targetHeight := tH3
    targetScaleZ := sZ2
    targetPosition := (animation.x.getD basePosition.1,
      animation.y.getD basePosition.2.1, animation.z.getD basePosition.2.2)
    targetRotation := ((animation.rotateX.getD 0) + baseRotation.1,
      (animation.rotateY.getD 0) + baseRotation.2.1,
      (animation.rotateZ.getD 0) + baseRotation.2.2)
    targetOpacity := animation.opacity.getD 1 }

end Hook

/-- Once a spring channel rests exactly on its target with zero velocity,
every further step leaves it there, for any nonnegative threshold. -/
theorem iterSpring_at_rest (s d t tg δ : ℚ) (ht : 0 ≤ t) (k : ℕ) :
    iterSpring s d t tg δ (tg, 0) k = (tg, 0) := by
  induction k with
  | zero => rfl
  | succ n ih =>
    show iterSpring s d t tg δ _ n = _
    rw [springStep_at_rest s d t tg δ ht]
    exact ih

/-- A record that supplies scale together with per-axis scales and no explicit
width or height (the C4 counterexample input). -/
def scaleConflictRecord : AnimationValues where
  scale := some 2
  scaleX := some 3
  scaleY := some 3
  scaleZ := some 3

/-- C4 counterexample: a record supplying scale 2 (and no explicit width or
height) together with per-axis scales 3 yields a width target of base × 3, not
base × 2, and likewise for the height and Z-scale targets, because the
scaleX / scaleY / scaleZ clauses run after the scale clause. -/
theorem C4_counterexample :
    (scaleConflictRecord.scale = some 2
        ∧ scaleConflictRecord.width = none
        ∧ scaleConflictRecord.height = none)
      ∧ (Hook.applyAnimation 1 1 (0, 0, 0) (0, 0, 0)
          scaleConflictRecord).targetWidth = 3
      ∧ (Hook.applyAnimation 1 1 (0, 0, 0) (0, 0, 0)
          scaleConflictRecord).targetWidth ≠ 1 * 2
      ∧ (Hook.applyAnimation 1 1 (0, 0, 0) (0, 0, 0)
          scaleConflictRecord).targetHeight ≠ 1 * 2
      ∧ (Hook.applyAnimation 1 1 (0, 0, 0) (0, 0, 0)
          scaleConflictRecord).targetScaleZ ≠ 2 := by
  refine ⟨⟨rfl, rfl, rfl⟩, rfl, by decide, by decide, by decide⟩

/-- C4 (amended): when an animation record supplies scale and none of width,
height, scaleX, scaleY, scaleZ, applying it sets the width target to
baseWidth × scale, the height target to baseHeight × scale and moves the
uniform (Z) scale channel by scale; hence a 1 × 1 panel hovered with a
whileHover of scale 1.1 resolves both dimension targets to 1.1, and the
width and height spring channels (default transition: stiffness 15, damping
0.8, threshold 0.001, delta 1/60), started at 1, settle exactly at 1.1 with
zero velocity from frame 35 on. -/
theorem C4_scale_targets :
    (∀ (bW bH : ℚ) (bP bR : ℚ × ℚ × ℚ) (a : AnimationValues) (s : ℚ),
        a.scale = some s → a.width = none → a.height = none →
        a.scaleX = none → a.scaleY = none → a.scaleZ = none →
          (Hook.applyAnimation bW bH bP bR a).targetWidth = bW * s
          ∧ (Hook.applyAnimation bW bH bP bR a).targetHeight = bH * s
          ∧ (Hook.applyAnimation bW bH bP bR a).targetScaleZ = s)
    ∧ ((Hook.applyAnimation 1 1 (0, 0, 0) (0, 0, 0)
          (Hook.getCurrentAnimation none false false false true
            (some { scale := some (11/10) }) none none none)).targetWidth = 11/10
      ∧ (Hook.applyAnimation 1 1 (0, 0, 0) (0, 0, 0)
          (Hook.getCurrentAnimation none false false false true
            (some { scale := some (11/10) }) none none none)).targetHeight = 11/10
      ∧ ∀ m, 35 ≤ m →
          iterSpring FullVariant.DEFAULT_TRANSITION.stiffness
            FullVariant.DEFAULT_TRANSITION.damping
            FullVariant.DEFAULT_TRANSITION.threshold
            (Hook.applyAnimation 1 1 (0, 0, 0) (0, 0, 0)
              (Hook.getCurrentAnimation none false false false true
                (some { scale := some (11/10) }) none none none)).targetWidth
            (1/60) (1, 0) m = (11/10, 0)) := by
  constructor
  · intro bW bH bP bR a s hs hw hh hx hy hz
    refine ⟨?_, ?_, ?_⟩ <;>
      simp only [Hook.applyAnimation, hs, hw, hh, hx, hy, hz]
  · have htgt : (Hook.applyAnimation 1 1 (0, 0, 0) (0, 0, 0)
        (Hook.getCurrentAnimation none false false false true
          (some { scale := some (11/10) }) none none none)).targetWidth = 11/10 := by
      decide
    refine ⟨htgt, by decide, ?_⟩
    intro m hm
    rw [htgt]
    have hsplit : m = 35 + (m - 35) := by omega
    rw [hsplit, iterSpring_add]
    have h20 : iterSpring FullVariant.DEFAULT_TRANSITION.stiffness
        FullVariant.DEFAULT_TRANSITION.damping
        FullVariant.DEFAULT_TRANSITION.threshold (11/10) (1/60) (1, 0) 20 =
        ((770697502632974629312341502939 : ℚ)/697356880200000000000000000000,
         (2921383258408893248542273009 : ℚ)/581130733500000000000000000000) := by
      decide
    have h35 : iterSpring FullVariant.DEFAULT_TRANSITION.stiffness
        FullVariant.DEFAULT_TRANSITION.damping
        FullVariant.DEFAULT_TRANSITION.threshold (11/10) (1/60)
        ((770697502632974629312341502939 : ℚ)/697356880200000000000000000000,
         (2921383258408893248542273009 : ℚ)/581130733500000000000000000000) 15 =
        (11/10, 0) := by
      decide
    have e35 : (35 : ℕ) = 20 + 15 := by norm_num
    rw [e35, iterSpring_add, h20, h35]
    exact iterSpring_at_rest _ _ _ _ _ (by decide) _

/-- Witness for C4: the amended target rule applied to the concrete record
supplying only scale 2 on a 2 × 3 base panel. -/
theorem C4_scale_targets_witness :
    (Hook.applyAnimation 2 3 (0, 0, 0) (0, 0, 0) { scale := some 2 }).targetWidth = 2 * 2
      ∧ (Hook.applyAnimation 2 3 (0, 0, 0) (0, 0, 0) { scale := some 2 }).targetHeight = 3 * 2
      ∧ (Hook.applyAnimation 2 3 (0, 0, 0) (0, 0, 0) { scale := some 2 }).targetScaleZ = 2 :=
  C4_scale_targets.1 2 3 (0, 0, 0) (0, 0, 0) { scale := some 2 } 2
    rfl rfl rfl rfl rfl rfl

end AnimationRecords

section FrameLoop

attribute [local semireducible] Rat.add Rat.mul Rat.sub Rat.inv

/-- springStepBorderRadius (utils.ts): spring physics applied to each of the
four corners; each corner's loop body is exactly the springStep formula with
per-corner snapping, and the returned isAnimating flag is the disjunction of
the four per-corner flags. -/
def springStepBorderRadius (current target velocity : ℚ × ℚ × ℚ × ℚ)
    (delta strength damping threshold : ℚ) :
    (ℚ × ℚ × ℚ × ℚ) × (ℚ × ℚ × ℚ × ℚ) × Bool :=
  let r0 := springStep strength damping threshold current.1 target.1 velocity.1 delta
  let r1 := springStep strength damping threshold current.2.1 target.2.1
    velocity.2.1 delta
  let r2 := springStep strength damping threshold current.2.2.1 target.2.2.1
    velocity.2.2.1 delta
  let r3 := springStep strength damping threshold current.2.2.2 target.2.2.2
    velocity.2.2.2 delta
  ((r0.1, r1.1, r2.1, r3.1), (r0.2.1, r1.2.1, r2.2.1, r3.2.1),
    r0.2.2 || r1.2.2 || r2.2.2 || r3.2.2)

/-- Componentwise spring stepping of a 3-vector channel (the per-component
for-loops of the frame callback, which keep only value and velocity). -/
def springStep3 (strength damping threshold : ℚ) (current target velocity : ℚ × ℚ × ℚ)
    (delta : ℚ) : (ℚ × ℚ × ℚ) × (ℚ × ℚ × ℚ) :=
  let r0 := springStep strength damping threshold current.1 target.1 velocity.1 delta
  let r1 := springStep strength damping threshold current.2.1 target.2.1
    velocity.2.1 delta
  let r2 := springStep strength damping threshold current.2.2 target.2.2
    velocity.2.2 delta
  ((r0.1, r1.1, r2.1), (r0.2.1, r1.2.1, r2.2.1))

/-- The spring parameters available to the frame callback of the full variant:
the base springStrength / damping / animationThreshold props plus the resolved
position and rotation spring configs. -/
structure FrameConfig where
  springStrength : ℚ
  damping : ℚ
  animationThreshold : ℚ
  positionStrength : ℚ
  positionDamping : ℚ
  rotationStrength : ℚ
  rotationDamping : ℚ

/-- The mutable animation state read and written by the frame callback of the
full variant: current value, target and velocity for the width, height,
border-radius, uniform-scale, position, rotation and opacity channels. -/
structure FrameState where
  currentWidth : ℚ
  targetWidth : ℚ
  widthVelocity : ℚ
  currentHeight : ℚ
  targetHeight : ℚ
  heightVelocity : ℚ
  currentBorderRadius : ℚ × ℚ × ℚ × ℚ
  targetBorderRadius : ℚ × ℚ × ℚ × ℚ
  borderRadiusVelocity : ℚ × ℚ × ℚ × ℚ
  currentScale : ℚ
  targetScale : ℚ
  scaleVelocity : ℚ
  currentPosition : ℚ × ℚ × ℚ
  targetPosition : ℚ × ℚ × ℚ
  positionVelocity : ℚ × ℚ × ℚ
  currentRotation : ℚ × ℚ × ℚ
  targetRotation : ℚ × ℚ × ℚ
  rotationVelocity : ℚ × ℚ × ℚ
  currentOpacity : ℚ
  targetOpacity : ℚ
  opacityVelocity : ℚ

/-- One run of the useFrame callback of the full variant bundle: every channel
is spring-stepped; geometryNeedsUpdate is set exactly when the width, height
or border-radius step reports animating; the returned number counts the
setGeometryUpdateFlag calls of the frame (one when flagged, else zero). -/
def useFrameStep (cfg : FrameConfig) (delta : ℚ) (s : FrameState) :
    FrameState × ℕ :=
  let w := springStep cfg.springStrength cfg.damping cfg.animationThreshold
    s.currentWidth s.targetWidth s.widthVelocity delta
  let h := springStep cfg.springStrength cfg.damping cfg.animationThreshold
    s.currentHeight s.targetHeight s.heightVelocity delta
  let r := springStepBorderRadius s.currentBorderRadius s.targetBorderRadius
    s.borderRadiusVelocity delta cfg.springStrength cfg.damping cfg.animationThreshold
  let geometryNeedsUpdate := w.2.2 || h.2.2 || r.2.2
  let sc := springStep cfg.springStrength cfg.damping cfg.animationThreshold
    s.currentScale s.targetScale s.scaleVelocity delta
  let pos := springStep3 cfg.positionStrength cfg.positionDamping
    cfg.animationThreshold s.currentPosition s.targetPosition s.positionVelocity delta
  let rot := springStep3 cfg.rotationStrength cfg.rotationDamping
    cfg.animationThreshold s.currentRotation s.targetRotation s.rotationVelocity delta
  let op := springStep cfg.springStrength cfg.damping cfg.animationThreshold
    s.currentOpacity s.targetOpacity s.opacityVelocity delta
  ({ s with
      currentWidth := w.1, widthVelocity := w.2.1
      currentHeight := h.1, heightVelocity := h.2.1
      currentBorderRadius := r.1, borderRadiusVelocity := r.2.1
      currentScale := sc.1, scaleVelocity := sc.2.1
      currentPosition := pos.1, positionVelocity := pos.2
      currentRotation := rot.1, rotationVelocity := rot.2
      currentOpacity := op.1, opacityVelocity := op.2.1 },
    if geometryNeedsUpdate then 1 else 0)

/-- Repeated frames. -/
def iterFrames (cfg : FrameConfig) (delta : ℚ) (s : FrameState) : ℕ → FrameState
  | 0 => s
  | n + 1 => iterFrames cfg delta (useFrameStep cfg delta s).1 n

/-- The four corner channels at rest stay at rest and report not animating. -/
theorem springStepBorderRadius_at_rest (tg : ℚ × ℚ × ℚ × ℚ) (δ s d t : ℚ)
    (ht : 0 ≤ t) :
    springStepBorderRadius tg tg (0, 0, 0, 0) δ s d t = (tg, (0, 0, 0, 0), false) := by
  show (((springStep s d t tg.1 tg.1 0 δ).1, _, _, _), _, _) = _
  rw [springStep_at_rest s d t tg.1 δ ht, springStep_at_rest s d t tg.2.1 δ ht,
    springStep_at_rest s d t tg.2.2.1 δ ht, springStep_at_rest s d t tg.2.2.2 δ ht]
  rfl

theorem iterFrames_succ (cfg : FrameConfig) (δ : ℚ) (s : FrameState) (n : ℕ) :
    iterFrames cfg δ s (n + 1) = (useFrameStep cfg δ (iterFrames cfg δ s n)).1 := by
  induction n generalizing s with
  | zero => rfl
  | succ m ihm => exact ihm (useFrameStep cfg δ s).1

/-- The dimension and radius channels of a frame state are at rest: each sits
exactly on its target with zero velocity. -/
def DimsAtRest (s : FrameState) : Prop :=
  s.currentWidth = s.targetWidth ∧ s.widthVelocity = 0
    ∧ s.currentHeight = s.targetHeight ∧ s.heightVelocity = 0
    ∧ s.currentBorderRadius = s.targetBorderRadius
    ∧ s.borderRadiusVelocity = (0, 0, 0, 0)

theorem useFrameStep_at_rest (cfg : FrameConfig) (δ : ℚ) (s : FrameState)
    (ht : 0 ≤ cfg.animationThreshold) (hrest : DimsAtRest s) :
    (useFrameStep cfg δ s).2 = 0 ∧ DimsAtRest (useFrameStep cfg δ s).1 := by
  obtain ⟨hw, hwv, hh, hhv, hr, hrv⟩ := hrest
  unfold useFrameStep
  rw [hw, hwv, hh, hhv, hr, hrv]
  rw [springStep_at_rest _ _ _ _ _ ht, springStep_at_rest _ _ _ _ _ ht,
    springStepBorderRadius_at_rest _ _ _ _ _ ht]
  exact ⟨rfl, rfl, rfl, rfl, rfl, rfl, rfl⟩

/-- C5: geometry-rebuild gating of the frame callback. (i) On a frame where
the width, height and border-radius steps all report settled, no rebuild is
triggered, whatever the scale, position, rotation and opacity channels do.
(ii) On a frame where the width step reports animating, exactly one rebuild is
triggered. (iii) Once the dimension and radius channels are at rest on their
targets, every subsequent frame triggers zero rebuilds. -/
theorem C5_rebuild_gating (cfg : FrameConfig) (δ : ℚ) (s : FrameState) :
    ((springStep cfg.springStrength cfg.damping cfg.animationThreshold
          s.currentWidth s.targetWidth s.widthVelocity δ).2.2 = false →
      (springStep cfg.springStrength cfg.damping cfg.animationThreshold
          s.currentHeight s.targetHeight s.heightVelocity δ).2.2 = false →
      (springStepBorderRadius s.currentBorderRadius s.targetBorderRadius
          s.borderRadiusVelocity δ cfg.springStrength cfg.damping
          cfg.animationThreshold).2.2 = false →
        (useFrameStep cfg δ s).2 = 0)
    ∧ ((springStep cfg.springStrength cfg.damping cfg.animationThreshold
          s.currentWidth s.targetWidth s.widthVelocity δ).2.2 = true →
        (useFrameStep cfg δ s).2 = 1)
    ∧ (0 ≤ cfg.animationThreshold → DimsAtRest s →
        ∀ k, (useFrameStep cfg δ (iterFrames cfg δ s k)).2 = 0) := by
  refine ⟨fun hw hh hr => ?_, fun hw => ?_, fun ht hrest => ?_⟩
  · show (if _ || _ || _ then 1 else 0) = 0
    rw [hw, hh, hr]
    rfl
  · show (if _ || _ || _ then 1 else 0) = 1
    rw [hw]
    rfl
  · have main : ∀ k, (useFrameStep cfg δ (iterFrames cfg δ s k)).2 = 0
        ∧ DimsAtRest (iterFrames cfg δ s k) := by
      intro k
      induction k with
      | zero => exact ⟨(useFrameStep_at_rest cfg δ s ht hrest).1, hrest⟩
      | succ n ih =>
        have hstep := useFrameStep_at_rest cfg δ (iterFrames cfg δ s n) ht ih.2
        rw [iterFrames_succ]
        exact ⟨(useFrameStep_at_rest cfg δ _ ht hstep.2).1, hstep.2⟩
    exact fun k => (main k).1

/-- Default frame spring parameters: strength 15, damping 0.8, threshold
0.001 for every channel family. -/
def defaultFrameConfig : FrameConfig where
  springStrength := 15
  damping := 4/5
  animationThreshold := 1/1000
  positionStrength := 15
  positionDamping := 4/5
  rotationStrength := 15
  rotationDamping := 4/5

/-- A state whose dimension and radius channels are settled while the opacity
and uniform-scale channels are still far from their targets. -/
def restDimsState : FrameState where
  currentWidth := 1
  targetWidth := 1
  widthVelocity := 0
  currentHeight := 1
  targetHeight := 1
  heightVelocity := 0
  currentBorderRadius := (1/5, 1/5, 1/5, 1/5)
  targetBorderRadius := (1/5, 1/5, 1/5, 1/5)
  borderRadiusVelocity := (0, 0, 0, 0)
  currentScale := 1
  targetScale := 2
  scaleVelocity := 0
  currentPosition := (0, 0, 0)
  targetPosition := (0, 1, 0)
  positionVelocity := (0, 0, 0)
  currentRotation := (0, 0, 0)
  targetRotation := (0, 0, 1)
  rotationVelocity := (0, 0, 0)
  currentOpacity := 0
  targetOpacity := 1
  opacityVelocity := 0

/-- The same state with the width channel animating from 1 toward 1.5. -/
def animatingWidthState : FrameState :=
  { restDimsState with targetWidth := 3/2 }

/-- Witness for C5: at the default parameters, the settled-dimension state
triggers no rebuild (even though opacity, scale, position and rotation are
animating), the width-animating state triggers exactly one rebuild, and three
frames later the settled-dimension state still triggers none. -/
theorem C5_rebuild_gating_witness :
    (useFrameStep defaultFrameConfig (1/60) restDimsState).2 = 0
      ∧ (useFrameStep defaultFrameConfig (1/60) animatingWidthState).2 = 1
      ∧ (useFrameStep defaultFrameConfig (1/60)
          (iterFrames defaultFrameConfig (1/60) restDimsState 3)).2 = 0 :=
  ⟨(C5_rebuild_gating defaultFrameConfig (1/60) restDimsState).1
      (by decide) (by decide) (by decide),
    (C5_rebuild_gating defaultFrameConfig (1/60) animatingWidthState).2.1 (by decide),
    (C5_rebuild_gating defaultFrameConfig (1/60) restDimsState).2.2
      (by decide) ⟨rfl, rfl, rfl, rfl, rfl, rfl⟩ 3⟩

end FrameLoop

section PointerHandlers

/-- The host callbacks a pointer handler can invoke (handlers.ts props). -/
inductive PointerEvent
  | hoverStart
  | hoverEnd
  | tapStart
  | tapEnd
  | click
  | toggle (next : Bool)
deriving DecidableEq

/-- The isHovered / isPressed component state the handlers write. -/
structure InteractionState where
  isHovered : Bool
  isPressed : Bool
deriving DecidableEq

/-- handlePointerEnter from handlers.ts (useHandlers): bail out when disabled,
else set hovered and fire onHoverStart. The returned list is the sequence of
callbacks invoked. -/
def handlePointerEnter (disabled : Bool) (s : InteractionState) :
    InteractionState × List PointerEvent :=
  if disabled then (s, [])
  else ({ s with isHovered := true }, [.hoverStart])

/-- handlePointerLeave from handlers.ts: bail out when disabled, else clear
hovered and fire onHoverEnd. -/
def handlePointerLeave (disabled : Bool) (s : InteractionState) :
    InteractionState × List PointerEvent :=
  if disabled then (s, [])
  else ({ s with isHovered := false }, [.hoverEnd])

/-- handlePointerDown from handlers.ts: bail out when disabled, else set
pressed and fire onTapStart. -/
def handlePointerDown (disabled : Bool) (s : InteractionState) :
    InteractionState × List PointerEvent :=
  if disabled then (s, [])
  else ({ s with isPressed := true }, [.tapStart])

/-- handlePointerUp from handlers.ts: bail out when disabled, else clear
pressed and fire onTapEnd, onClick and onToggle(not active) in order. -/
def handlePointerUp (disabled active : Bool) (s : InteractionState) :
    InteractionState × List PointerEvent :=
  if disabled then (s, [])
  else ({ s with isPressed := false }, [.tapEnd, .click, .toggle (!active)])

/-- C10: with the disabled flag set, each of the four pointer handlers returns
the state unchanged and invokes no callback; in particular a panel disabled
while hovered keeps hovered = true across a pointer leave, and no onHoverEnd
fires. -/
theorem C10_disabled_handlers :
    ∀ (s : InteractionState) (active : Bool),
      handlePointerEnter true s = (s, [])
        ∧ handlePointerLeave true s = (s, [])
        ∧ handlePointerDown true s = (s, [])
        ∧ handlePointerUp true active s = (s, [])
        ∧ (handlePointerLeave true
            { isHovered := true, isPressed := s.isPressed }).1.isHovered = true
        ∧ PointerEvent.hoverEnd ∉ (handlePointerLeave true
            { isHovered := true, isPressed := s.isPressed }).2 :=
  fun s active =>
    ⟨rfl, rfl, rfl, rfl, rfl, by simp [handlePointerLeave]⟩

end PointerHandlers

section Geometry

open Real

/-- BorderRadius (types.ts) for the geometry path, over the reals: a single
number or a [topLeft, topRight, bottomRight, bottomLeft] tuple. -/
inductive BorderRadius
  | scalar (r : ℝ)
  | corners (topLeft topRight bottomRight bottomLeft : ℝ)

/-- normalizeBorderRadius (utils.ts): bring the radius to the
(topLeft, topRight, bottomRight, bottomLeft) format, taking the minimum of
each entry with maxRadius. -/
def normalizeBorderRadius : BorderRadius → ℝ → ℝ × ℝ × ℝ × ℝ
  | .scalar radius, maxRadius =>
    let r := min radius maxRadius
    (r, r, r, r)
  | .corners tl tr br bl, maxRadius =>
    (min tl maxRadius, min tr maxRadius, min br maxRadius, min bl maxRadius)

/-- createSmoothArc (utils.ts): the arc points appended by the i = 1 .. segments
loop, at angle startAngle + ((endAngle - startAngle) / segments) * i on the
circle of the given center and radius. -/
noncomputable def createSmoothArc (centerX centerY radius startAngle endAngle : ℝ)
    (segments : ℕ) : List (ℝ × ℝ) :=
  (List.range segments).map fun i : ℕ =>
    let angle := startAngle + ((endAngle - startAngle) / (segments : ℝ)) * ((i : ℝ) + 1)
    (centerX + radius * Real.cos angle, centerY + radius * Real.sin angle)

/-- createRoundedRectangleShape (utils.ts): the sequence of boundary points
the builder emits (moveTo, the four lineTo anchors, and each corner arc when
its radius is positive), walking bottom edge, bottom-right arc, right edge,
top-right arc, top edge, top-left arc, left edge, bottom-left arc. -/
noncomputable def createRoundedRectangleShape (width height : ℝ) (radius : BorderRadius)
    (smoothness : ℕ) : List (ℝ × ℝ) :=
  let maxRadius := min (width / 2) (height / 2)
  match normalizeBorderRadius radius maxRadius with
  | (rTL, rTR, rBR, rBL) =>
  let w2 := width / 2
  let h2 := height / 2
  [(-w2 + rBL, -h2), (w2 - rBR, -h2)]
    ++ (if rBR > 0 then
        createSmoothArc (w2 - rBR) (-h2 + rBR) rBR (-(π / 2)) 0 smoothness else [])
    ++ [(w2, h2 - rTR)]
    ++ (if rTR > 0 then
        createSmoothArc (w2 - rTR) (h2 - rTR) rTR 0 (π / 2) smoothness else [])
    ++ [(-w2 + rTL, h2)]
    ++ (if rTL > 0 then
        createSmoothArc (-w2 + rTL) (h2 - rTL) rTL (π / 2) π smoothness else [])
    ++ [(-w2, -h2 + rBL)]
    ++ (if rBL > 0 then
        createSmoothArc (-w2 + rBL) (-h2 + rBL) rBL π (3 * π / 2) smoothness else [])

/-- C9 counterexample: at width = height = 2 (so maxRadius = 1) the scalar
radius -1 passes through normalization unchanged: the first component is -1,
which is not at least 0 — the lower end of the claimed range fails. -/
theorem C9_counterexample :
    normalizeBorderRadius (.scalar (-1)) (min ((2:ℝ)/2) ((2:ℝ)/2)) = (-1, -1, -1, -1)
      ∧ ¬ (0:ℝ) ≤ (normalizeBorderRadius (.scalar (-1))
          (min ((2:ℝ)/2) ((2:ℝ)/2))).1 := by
  have hmin : min ((2:ℝ)/2) ((2:ℝ)/2) = 1 := by norm_num
  have hm : min (-1 : ℝ) 1 = -1 := by
    rw [min_def]
    norm_num
  constructor
  · show (min (-1:ℝ) (min ((2:ℝ)/2) ((2:ℝ)/2)), _, _, _) = _
    rw [hmin, hm]
  · show ¬ (0:ℝ) ≤ min (-1:ℝ) (min ((2:ℝ)/2) ((2:ℝ)/2))
    rw [hmin, hm]
    norm_num

/-- The normalization at the C3 failing input: the scalar radius -10 is kept
at every corner. -/
theorem normalize_neg_ten :
    normalizeBorderRadius (.scalar (-10)) (min ((1:ℝ)/2) ((1:ℝ)/2))
      = (-10, -10, -10, -10) := by
  have hm : min (-10 : ℝ) (min ((1:ℝ)/2) ((1:ℝ)/2)) = -10 := by
    rw [min_def]
    norm_num
  show (min (-10:ℝ) (min ((1:ℝ)/2) ((1:ℝ)/2)), _, _, _) = _
  rw [hm]

/-- C9 (amended): for every radius input and positive width and height, the
normalization used by the shape builder never rejects the input (it is a total
function) and every component of its result is at most min(width, height)/2;
the claimed lower bound 0 does not hold in general, since negative entries are
not clamped from below. -/
theorem C9_radius_clamp :
    ∀ (radius : BorderRadius) (w h : ℝ), 0 < w → 0 < h →
      (normalizeBorderRadius radius (min (w/2) (h/2))).1 ≤ min w h / 2
        ∧ (normalizeBorderRadius radius (min (w/2) (h/2))).2.1 ≤ min w h / 2
        ∧ (normalizeBorderRadius radius (min (w/2) (h/2))).2.2.1 ≤ min w h / 2
        ∧ (normalizeBorderRadius radius (min (w/2) (h/2))).2.2.2 ≤ min w h / 2 := by
  intro radius w h _ _
  have hm : min (w/2) (h/2) = min w h / 2 := by
    rw [div_eq_mul_inv w 2, div_eq_mul_inv h 2, div_eq_mul_inv (min w h) 2]
    exact (min_mul_of_nonneg w h (by norm_num)).symm
  cases radius with
  | scalar r =>
    refine ⟨?_, ?_, ?_, ?_⟩ <;>
      simp [normalizeBorderRadius, hm, min_le_right]
  | corners tl tr br bl =>
    refine ⟨?_, ?_, ?_, ?_⟩ <;>
      simp [normalizeBorderRadius, hm, min_le_right]

/-- Witness for C9: the amended bound applied at width 2, height 3 and a
scalar radius 5 (each normalized component is at most 1). -/
theorem C9_radius_clamp_witness :
    (normalizeBorderRadius (.scalar 5) (min ((2:ℝ)/2) ((3:ℝ)/2))).1 ≤ min 2 3 / 2 :=
  (C9_radius_clamp (.scalar 5) 2 3 (by norm_num) (by norm_num)).1

/-- The point at parameter t of the segment from a to b. -/
def segPoint (a b : ℝ × ℝ) (t : ℝ) : ℝ × ℝ :=
  (a.1 + t * (b.1 - a.1), a.2 + t * (b.2 - a.2))

/-- Two closed segments meet: some point of one is a point of the other. -/
def SegsIntersect (a b c d : ℝ × ℝ) : Prop :=
  ∃ u v : ℝ, 0 ≤ u ∧ u ≤ 1 ∧ 0 ≤ v ∧ v ≤ 1 ∧ segPoint a b u = segPoint c d v

/-- The i-th vertex of the closed outline built on the emitted point list,
indices taken cyclically. -/
def polyVertex (P : List (ℝ × ℝ)) (i : ℕ) : ℝ × ℝ :=
  P.getD (i % P.length) (0, 0)

/-- The emitted closed outline is simple: no two non-adjacent edges (cyclic
successor pairs of vertices) intersect. -/
def IsSimplePolygon (P : List (ℝ × ℝ)) : Prop :=
  ∀ i j : ℕ, i < P.length → j < P.length → i ≠ j →
    (i + 1) % P.length ≠ j → (j + 1) % P.length ≠ i →
      ¬ SegsIntersect (polyVertex P i) (polyVertex P (i + 1))
        (polyVertex P j) (polyVertex P (j + 1))

/-- C3: at width = height = 1 and scalar radius -10 — which satisfies the
stated clamp invariant, each corner radius at most min(width, height)/2 — the
builder (whose normalization does not clamp negative radii from below, and
whose arcs are all skipped for nonpositive radii) emits a five-point outline
whose bottom edge crosses its left edge: the claimed simplicity guarantee
fails on the code. -/
theorem C3_code_bug :
    ¬ IsSimplePolygon (createRoundedRectangleShape 1 1 (.scalar (-10)) 16) := by
  intro hsimple
  have hneg : ¬ ((-10:ℝ) > 0) := by norm_num
  have hshape : createRoundedRectangleShape 1 1 (.scalar (-10)) 16 =
      [(-(21/2), -(1/2)), (21/2, -(1/2)), (1/2, 21/2), (-(21/2), 1/2),
        (-(1/2), -(21/2))] := by
    simp only [createRoundedRectangleShape, normalize_neg_ten]
    rw [if_neg hneg, if_neg hneg, if_neg hneg, if_neg hneg]
    norm_num
  rw [hshape] at hsimple
  have hP := hsimple 0 3 (by norm_num) (by norm_num) (by norm_num)
    (by norm_num) (by norm_num)
  apply hP
  refine ⟨10/231, 1/11, by norm_num, by norm_num, by norm_num, by norm_num, ?_⟩
  show ((-(21/2) + 10/231 * (21/2 - -(21/2)) : ℝ), (-(1/2) + 10/231 * (-(1/2) - -(1/2)) : ℝ))
      = ((-(21/2) + 1/11 * (-(1/2) - -(21/2)) : ℝ), ((1/2) + 1/11 * (-(21/2) - (1/2)) : ℝ))
  norm_num

theorem c2_cos_pi_add (x : ℝ) : Real.cos (π + x) = -Real.cos x := by
  rw [Real.cos_add]
  simp

theorem c2_sin_pi_add (x : ℝ) : Real.sin (π + x) = -Real.sin x := by
  rw [Real.sin_add]
  simp

/-- Normalization at the C2 input: all four corners keep radius 0.3, the
clamp bound being min(2/2, 1/2) = 1/2. -/
theorem c2_norm :
    normalizeBorderRadius (.corners (3/10) (3/10) (3/10) (3/10))
        (min ((2:ℝ)/2) ((1:ℝ)/2))
      = (3/10, 3/10, 3/10, 3/10) := by
  have h1 : min ((2:ℝ)/2) ((1:ℝ)/2) = 1/2 := by
    rw [min_def]
    norm_num
  have h2 : min ((3:ℝ)/10) (1/2) = 3/10 := by
    rw [min_def]
    norm_num
  show (min ((3:ℝ)/10) _, min ((3:ℝ)/10) _, min ((3:ℝ)/10) _, min ((3:ℝ)/10) _) = _
  rw [h1, h2]

/-- The C2 shape: the emitted point sequence decomposed into the five anchors
and the four 16-segment corner arcs. -/
theorem c2_shape :
    createRoundedRectangleShape 2 1 (.corners (3/10) (3/10) (3/10) (3/10)) 16 =
      [(-(7/10), -(1/2)), ((7:ℝ)/10, -(1/2))]
        ++ createSmoothArc ((7:ℝ)/10) (-(1/5)) (3/10) (-(π/2)) 0 16
        ++ [((1:ℝ), 1/5)]
        ++ createSmoothArc ((7:ℝ)/10) (1/5) (3/10) 0 (π/2) 16
        ++ [(-((7:ℝ)/10), 1/2)]
        ++ createSmoothArc (-((7:ℝ)/10)) (1/5) (3/10) (π/2) π 16
        ++ [(-(1:ℝ), -(1/5))]
        ++ createSmoothArc (-((7:ℝ)/10)) (-(1/5)) (3/10) π (3*π/2) 16 := by
  have h3 : ((3:ℝ)/10) > 0 := by norm_num
  simp only [createRoundedRectangleShape, c2_norm]
  rw [if_pos h3, if_pos h3, if_pos h3, if_pos h3]
  norm_num

/-- The first point of a 16-segment arc. -/
theorem c2_arc_head (cx cy r θa θb : ℝ) :
    (createSmoothArc cx cy r θa θb 16).head? =
      some (cx + r * Real.cos (θa + (θb - θa)/16),
        cy + r * Real.sin (θa + (θb - θa)/16)) := by
  rw [createSmoothArc, List.head?_map,
    (by decide : (List.range 16).head? = some 0)]
  have hang : θa + (θb - θa)/((16:ℕ):ℝ) * (((0:ℕ):ℝ) + 1) = θa + (θb - θa)/16 := by
    push_cast
    ring
  simp only [Option.map_some']
  rw [hang]

/-- The last point of a 16-segment arc sits exactly at the end angle. -/
theorem c2_arc_last (cx cy r θa θb : ℝ) :
    (createSmoothArc cx cy r θa θb 16).getLast? =
      some (cx + r * Real.cos θb, cy + r * Real.sin θb) := by
  rw [createSmoothArc, List.getLast?_map,
    (by decide : (List.range 16).getLast? = some 15)]
  have hang : θa + (θb - θa)/((16:ℕ):ℝ) * (((15:ℕ):ℝ) + 1) = θb := by
    push_cast
    ring
  simp only [Option.map_some']
  rw [hang]

theorem c2_pt_ne_of_snd_ne {cx cy r θ1 θ2 : ℝ} (hr : r ≠ 0)
    (h : Real.sin θ1 ≠ Real.sin θ2) :
    (cx + r * Real.cos θ1, cy + r * Real.sin θ1)
      ≠ (cx + r * Real.cos θ2, cy + r * Real.sin θ2) := by
  intro he
  have h2 := congrArg Prod.snd he
  simp only at h2
  exact h (mul_left_cancel₀ hr (add_left_cancel h2))

theorem c2_pt_ne_of_fst_ne {cx cy r θ1 θ2 : ℝ} (hr : r ≠ 0)
    (h : Real.cos θ1 ≠ Real.cos θ2) :
    (cx + r * Real.cos θ1, cy + r * Real.sin θ1)
      ≠ (cx + r * Real.cos θ2, cy + r * Real.sin θ2) := by
  intro he
  have h1 := congrArg Prod.fst he
  simp only at h1
  exact h (mul_left_cancel₀ hr (add_left_cancel h1))

/-- Two arc points whose angles stay in the strictly increasing range of sin
are distinct (their second coordinates differ). -/
theorem c2_ne_sin_mono {cx cy r θ1 θ2 : ℝ} (hr : r ≠ 0)
    (h1 : θ1 ∈ Set.Icc (-(π/2)) (π/2)) (h2 : θ2 ∈ Set.Icc (-(π/2)) (π/2))
    (hlt : θ1 < θ2) :
    (cx + r * Real.cos θ1, cy + r * Real.sin θ1)
      ≠ (cx + r * Real.cos θ2, cy + r * Real.sin θ2) :=
  c2_pt_ne_of_snd_ne hr (ne_of_lt (Real.strictMonoOn_sin h1 h2 hlt))

/-- Two arc points whose angles stay in the strictly decreasing range of cos
are distinct (their first coordinates differ). -/
theorem c2_ne_cos_anti {cx cy r θ1 θ2 : ℝ} (hr : r ≠ 0)
    (h1 : θ1 ∈ Set.Icc 0 π) (h2 : θ2 ∈ Set.Icc 0 π) (hlt : θ1 < θ2) :
    (cx + r * Real.cos θ1, cy + r * Real.sin θ1)
      ≠ (cx + r * Real.cos θ2, cy + r * Real.sin θ2) :=
  c2_pt_ne_of_fst_ne hr (ne_of_gt (Real.strictAntiOn_cos h1 h2 hlt))

/-- Two arc points at angles π + a with the shifts a in the strictly
increasing range of sin are distinct. -/
theorem c2_ne_sin_shifted {cx cy r a1 a2 : ℝ} (hr : r ≠ 0)
    (h1 : a1 ∈ Set.Icc (-(π/2)) (π/2)) (h2 : a2 ∈ Set.Icc (-(π/2)) (π/2))
    (hlt : a1 < a2) :
    (cx + r * Real.cos (π + a1), cy + r * Real.sin (π + a1))
      ≠ (cx + r * Real.cos (π + a2), cy + r * Real.sin (π + a2)) := by
  apply c2_pt_ne_of_snd_ne hr
  rw [c2_sin_pi_add, c2_sin_pi_add]
  exact fun he =>
    ne_of_lt (Real.strictMonoOn_sin h1 h2 hlt) (neg_injective he)

theorem c2_chain_map_range {f : ℕ → ℝ × ℝ} {n : ℕ}
    (h : ∀ i, i + 1 < n → f i ≠ f (i + 1)) :
    List.Chain' (fun a b => a ≠ b) ((List.range n).map f) := by
  rw [List.chain'_map]
  cases n with
  | zero => simp
  | succ m =>
    rw [List.chain'_range_succ]
    intro i hi
    exact h i (by omega)

theorem c2_mem_BR (x : ℝ) (h0 : 0 ≤ x) (h16 : x ≤ 16) :
    -(π/2) + ((0:ℝ) - -(π/2))/16 * x ∈ Set.Icc (-(π/2)) (π/2) := by
  have he : ((0:ℝ) - -(π/2))/16 = π/32 := by ring
  rw [he]
  have hpi := Real.pi_pos
  have hlo : 0 ≤ π/32 * x := by positivity
  have hhi : π/32 * x ≤ π/32 * 16 := by
    apply mul_le_mul_of_nonneg_left h16
    positivity
  constructor <;> nlinarith

theorem c2_mem_TR (x : ℝ) (h0 : 0 ≤ x) (h16 : x ≤ 16) :
    (0:ℝ) + (π/2 - 0)/16 * x ∈ Set.Icc (-(π/2)) (π/2) := by
  have he : ((π:ℝ)/2 - 0)/16 = π/32 := by ring
  rw [he]
  have hpi := Real.pi_pos
  have hlo : 0 ≤ π/32 * x := by positivity
  have hhi : π/32 * x ≤ π/32 * 16 := by
    apply mul_le_mul_of_nonneg_left h16
    positivity
  constructor <;> nlinarith

theorem c2_mem_TL (x : ℝ) (h0 : 0 ≤ x) (h16 : x ≤ 16) :
    π/2 + (π - π/2)/16 * x ∈ Set.Icc (0:ℝ) π := by
  have he : ((π:ℝ) - π/2)/16 = π/32 := by ring
  rw [he]
  have hpi := Real.pi_pos
  have hlo : 0 ≤ π/32 * x := by positivity
  have hhi : π/32 * x ≤ π/32 * 16 := by
    apply mul_le_mul_of_nonneg_left h16
    positivity
  constructor <;> nlinarith

theorem c2_mem_BLa (x : ℝ) (h0 : 0 ≤ x) (h16 : x ≤ 16) :
    (3*π/2 - π)/16 * x ∈ Set.Icc (-(π/2)) (π/2) := by
  have he : (3*(π:ℝ)/2 - π)/16 = π/32 := by ring
  rw [he]
  have hpi := Real.pi_pos
  have hlo : 0 ≤ π/32 * x := by positivity
  have hhi : π/32 * x ≤ π/32 * 16 := by
    apply mul_le_mul_of_nonneg_left h16
    positivity
  constructor <;> nlinarith

theorem c2_step_lt (θ0 c t : ℝ) (hc : 0 < c) :
    θ0 + c * (t + 1) < θ0 + c * (t + 1 + 1) := by nlinarith

theorem c2_step_lt' (c t : ℝ) (hc : 0 < c) :
    c * (t + 1) < c * (t + 1 + 1) := by nlinarith

theorem c2_chain_BR :
    List.Chain' (fun a b => a ≠ b)
      (createSmoothArc ((7:ℝ)/10) (-(1/5)) (3/10) (-(π/2)) 0 16) := by
  rw [createSmoothArc]
  apply c2_chain_map_range
  intro i hi
  have hi' : (i:ℝ) ≤ 14 := by exact_mod_cast (by omega : i ≤ 14)
  have hpi := Real.pi_pos
  have hcast : ((16:ℕ):ℝ) = 16 := by norm_num
  simp only [hcast]
  push_cast
  apply c2_ne_sin_mono (by norm_num : ((3:ℝ)/10) ≠ 0)
  · exact c2_mem_BR _ (by positivity) (by linarith)
  · exact c2_mem_BR _ (by positivity) (by linarith)
  · exact c2_step_lt _ _ _ (by rw [show ((0:ℝ) - -(π/2))/16 = π/32 from by ring]; positivity)

theorem c2_chain_TR :
    List.Chain' (fun a b => a ≠ b)
      (createSmoothArc ((7:ℝ)/10) (1/5) (3/10) 0 (π/2) 16) := by
  rw [createSmoothArc]
  apply c2_chain_map_range
  intro i hi
  have hi' : (i:ℝ) ≤ 14 := by exact_mod_cast (by omega : i ≤ 14)
  have hpi := Real.pi_pos
  have hcast : ((16:ℕ):ℝ) = 16 := by norm_num
  simp only [hcast]
  push_cast
  apply c2_ne_sin_mono (by norm_num : ((3:ℝ)/10) ≠ 0)
  · exact c2_mem_TR _ (by positivity) (by linarith)
  · exact c2_mem_TR _ (by positivity) (by linarith)
  · exact c2_step_lt _ _ _ (by rw [show ((π:ℝ)/2 - 0)/16 = π/32 from by ring]; positivity)

theorem c2_chain_TL :
    List.Chain' (fun a b => a ≠ b)
      (createSmoothArc (-((7:ℝ)/10)) (1/5) (3/10) (π/2) π 16) := by
  rw [createSmoothArc]
  apply c2_chain_map_range
  intro i hi
  have hi' : (i:ℝ) ≤ 14 := by exact_mod_cast (by omega : i ≤ 14)
  have hpi := Real.pi_pos
  have hcast : ((16:ℕ):ℝ) = 16 := by norm_num
  simp only [hcast]
  push_cast
  apply c2_ne_cos_anti (by norm_num : ((3:ℝ)/10) ≠ 0)
  · exact c2_mem_TL _ (by positivity) (by linarith)
  · exact c2_mem_TL _ (by positivity) (by linarith)
  · exact c2_step_lt _ _ _ (by rw [show ((π:ℝ) - π/2)/16 = π/32 from by ring]; positivity)

theorem c2_chain_BL :
    List.Chain' (fun a b => a ≠ b)
      (createSmoothArc (-((7:ℝ)/10)) (-(1/5)) (3/10) π (3*π/2) 16) := by
  rw [createSmoothArc]
  apply c2_chain_map_range
  intro i hi
  have hi' : (i:ℝ) ≤ 14 := by exact_mod_cast (by omega : i ≤ 14)
  have hpi := Real.pi_pos
  have hcast : ((16:ℕ):ℝ) = 16 := by norm_num
  simp only [hcast]
  push_cast
  apply c2_ne_sin_shifted (by norm_num : ((3:ℝ)/10) ≠ 0)
  · exact c2_mem_BLa _ (by positivity) (by linarith)
  · exact c2_mem_BLa _ (by positivity) (by linarith)
  · exact c2_step_lt' _ _ (by rw [show (3*(π:ℝ)/2 - π)/16 = π/32 from by ring]; positivity)

theorem c2_j1 : ((-(7/10), -(1/2)) : ℝ × ℝ) ≠ ((7:ℝ)/10, -(1/2)) := by
  intro he
  have h := congrArg Prod.fst he
  simp only at h
  norm_num at h

theorem c2_j2 : (((7:ℝ)/10, -(1/2)) : ℝ × ℝ)
    ≠ ((7:ℝ)/10 + 3/10 * Real.cos (-(π/2) + ((0:ℝ) - -(π/2))/16),
       -(1/5) + 3/10 * Real.sin (-(π/2) + ((0:ℝ) - -(π/2))/16)) := by
  have hpi := Real.pi_pos
  have he : -(π/2) + ((0:ℝ) - -(π/2))/16 = -(π/2) + π/32 := by ring
  rw [he]
  have hs := Real.strictMonoOn_sin
    (Set.mem_Icc.2 ⟨le_refl _, by linarith⟩)
    (Set.mem_Icc.2 ⟨by linarith, by linarith⟩)
    (show -(π/2) < -(π/2) + π/32 by linarith)
  rw [Real.sin_neg, Real.sin_pi_div_two] at hs
  intro heq
  have h2 := congrArg Prod.snd heq
  simp only at h2
  linarith

theorem c2_j3 :
    (((7:ℝ)/10 + 3/10 * Real.cos 0, -(1/5) + 3/10 * Real.sin 0) : ℝ × ℝ)
      ≠ ((1:ℝ), 1/5) := by
  rw [Real.cos_zero, Real.sin_zero]
  intro he
  have h2 := congrArg Prod.snd he
  simp only at h2
  norm_num at h2

theorem c2_j4 : (((1:ℝ), 1/5) : ℝ × ℝ)
    ≠ ((7:ℝ)/10 + 3/10 * Real.cos ((0:ℝ) + (π/2 - 0)/16),
       (1:ℝ)/5 + 3/10 * Real.sin ((0:ℝ) + (π/2 - 0)/16)) := by
  have hpi := Real.pi_pos
  have he : (0:ℝ) + (π/2 - 0)/16 = π/32 := by ring
  rw [he]
  have hs := Real.sin_pos_of_pos_of_lt_pi (x := π/32) (by positivity) (by linarith)
  intro heq
  have h2 := congrArg Prod.snd heq
  simp only at h2
  linarith

theorem c2_j5 :
    (((7:ℝ)/10 + 3/10 * Real.cos (π/2), (1:ℝ)/5 + 3/10 * Real.sin (π/2)) : ℝ × ℝ)
      ≠ (-((7:ℝ)/10), 1/2) := by
  rw [Real.cos_pi_div_two, Real.sin_pi_div_two]
  intro he
  have h1 := congrArg Prod.fst he
  simp only at h1
  norm_num at h1

theorem c2_j6 : ((-((7:ℝ)/10), 1/2) : ℝ × ℝ)
    ≠ (-((7:ℝ)/10) + 3/10 * Real.cos (π/2 + (π - π/2)/16),
       (1:ℝ)/5 + 3/10 * Real.sin (π/2 + (π - π/2)/16)) := by
  have hpi := Real.pi_pos
  have he : π/2 + ((π:ℝ) - π/2)/16 = π/2 + π/32 := by ring
  rw [he]
  have hc := Real.strictAntiOn_cos
    (Set.mem_Icc.2 ⟨by linarith, by linarith⟩)
    (Set.mem_Icc.2 ⟨by linarith, by linarith⟩)
    (show (π:ℝ)/2 < π/2 + π/32 by linarith)
  rw [Real.cos_pi_div_two] at hc
  intro heq
  have h1 := congrArg Prod.fst heq
  simp only at h1
  linarith

theorem c2_j7 :
    ((-((7:ℝ)/10) + 3/10 * Real.cos π, (1:ℝ)/5 + 3/10 * Real.sin π) : ℝ × ℝ)
      ≠ (-(1:ℝ), -(1/5)) := by
  rw [Real.cos_pi, Real.sin_pi]
  intro he
  have h2 := congrArg Prod.snd he
  simp only at h2
  norm_num at h2

theorem c2_j8 : ((-(1:ℝ), -(1/5)) : ℝ × ℝ)
    ≠ (-((7:ℝ)/10) + 3/10 * Real.cos (π + (3*π/2 - π)/16),
       -(1/5) + 3/10 * Real.sin (π + (3*π/2 - π)/16)) := by
  have hpi := Real.pi_pos
  have he : π + (3*(π:ℝ)/2 - π)/16 = π + π/32 := by ring
  rw [he, c2_cos_pi_add, c2_sin_pi_add]
  have hc := Real.strictAntiOn_cos
    (Set.mem_Icc.2 ⟨le_refl _, by linarith⟩)
    (Set.mem_Icc.2 ⟨by positivity, by linarith⟩)
    (show (0:ℝ) < π/32 by positivity)
  rw [Real.cos_zero] at hc
  intro heq
  have h1 := congrArg Prod.fst heq
  simp only at h1
  linarith

/-- The last bottom-left arc point closes the outline exactly on the first
emitted point. -/
theorem c2_closure :
    ((-((7:ℝ)/10) + 3/10 * Real.cos (3*π/2),
      -(1/5) + 3/10 * Real.sin (3*π/2)) : ℝ × ℝ) = (-(7/10), -(1/2)) := by
  rw [show (3*(π:ℝ)/2) = π + π/2 from by ring, c2_cos_pi_add, c2_sin_pi_add,
    Real.cos_pi_div_two, Real.sin_pi_div_two]
  norm_num

theorem c2_junction {l₁ l₂ : List (ℝ × ℝ)} {a b : ℝ × ℝ}
    (h₁ : l₁.getLast? = some a) (h₂ : l₂.head? = some b) (hab : a ≠ b) :
    ∀ x ∈ l₁.getLast?, ∀ y ∈ l₂.head?, x ≠ y := by
  intro x hx y hy
  rw [h₁] at hx
  rw [h₂] at hy
  obtain rfl : a = x := by simpa using hx
  obtain rfl : b = y := by simpa using hy
  exact hab

/-- C2: the shape built at width 2, height 1, radii [0.3, 0.3, 0.3, 0.3] and
smoothness 16 emits a closed outline with exactly 4 x 16 + 4 = 68 boundary
vertices once the closing duplicate is dropped, reproduces the first emitted
point as its last point (wraparound closure), and has no two consecutive
emitted points equal. -/
theorem C2_shape_validity :
    (createRoundedRectangleShape 2 1 (.corners (3/10) (3/10) (3/10) (3/10))
        16).dropLast.length = 4 * 16 + 4
      ∧ (createRoundedRectangleShape 2 1 (.corners (3/10) (3/10) (3/10) (3/10))
          16).getLast?
        = (createRoundedRectangleShape 2 1 (.corners (3/10) (3/10) (3/10) (3/10))
          16).head?
      ∧ List.Chain' (fun a b => a ≠ b)
          (createRoundedRectangleShape 2 1 (.corners (3/10) (3/10) (3/10) (3/10))
            16) := by
  rw [c2_shape]
  refine ⟨?_, ?_, ?_⟩
  · simp [List.length_dropLast, List.length_append, createSmoothArc]
  · simp only [List.getLast?_append, c2_arc_last, Option.or_some,
      List.head?_append, List.head?_cons]
    rw [c2_closure]
  · have h12 : List.Chain' (fun a b => a ≠ b)
        ([(-(7/10), -(1/2)), ((7:ℝ)/10, -(1/2))] : List (ℝ × ℝ)) :=
      List.chain'_cons.mpr ⟨c2_j1, List.chain'_singleton _⟩
    have t1 := List.chain'_append.mpr ⟨h12, c2_chain_BR,
      c2_junction rfl (c2_arc_head _ _ _ _ _) c2_j2⟩
    have t2 := List.chain'_append.mpr ⟨t1, List.chain'_singleton _,
      c2_junction (by rw [List.getLast?_append, c2_arc_last]; rfl) rfl c2_j3⟩
    have t3 := List.chain'_append.mpr ⟨t2, c2_chain_TR,
      c2_junction (by rw [List.getLast?_append]; rfl)
        (c2_arc_head _ _ _ _ _) c2_j4⟩
    have t4 := List.chain'_append.mpr ⟨t3, List.chain'_singleton _,
      c2_junction (by rw [List.getLast?_append, c2_arc_last]; rfl) rfl c2_j5⟩
    have t5 := List.chain'_append.mpr ⟨t4, c2_chain_TL,
      c2_junction (by rw [List.getLast?_append]; rfl)
        (c2_arc_head _ _ _ _ _) c2_j6⟩
    have t6 := List.chain'_append.mpr ⟨t5, List.chain'_singleton _,
      c2_junction (by rw [List.getLast?_append, c2_arc_last]; rfl) rfl c2_j7⟩
    have t7 := List.chain'_append.mpr ⟨t6, c2_chain_BL,
      c2_junction (by rw [List.getLast?_append]; rfl)
        (c2_arc_head _ _ _ _ _) c2_j8⟩
    exact t7

end Geometry
